import Mathlib

/-!
Verification of the strava-assistant repository core logic: the
nearest-trackpoint matcher (photo_processor.py), the track-metrics
aggregator (strava_assistant.py), the session grouper
(strava_assistant.py) and parts of the caption composer
(caption_generator.py), shallowly embedded in Lean.
-/

namespace StravaAssistant

/-- A wall-clock timestamp in whole seconds.  The field `tz = some o`
models a timezone-aware Python `datetime` carrying a UTC offset of `o`
seconds; `tz = none` models a naive `datetime`. -/
structure Timestamp where
  wall : Int
  tz : Option Int
  deriving DecidableEq, Repr

/-- Subtraction `a - b` of two Python datetimes, in whole seconds
(`(a - b).total_seconds()`).  It is defined when both are naive
(wall-clock difference) or both aware (absolute-instant difference);
`none` models the `TypeError` Python raises when an aware and a naive
datetime are mixed in one subtraction. -/
def datetimeSub (a b : Timestamp) : Option Int :=
  match a.tz, b.tz with
  | none, none => some (a.wall - b.wall)
  | some o1, some o2 => some ((a.wall - o1) - (b.wall - o2))
  | _, _ => none

/-- The absolute time difference in seconds,
`abs((photo_timestamp - gpx_time).total_seconds())`. -/
def timeDiffSec (photo gpx : Timestamp) : Option Nat :=
  (datetimeSub photo gpx).map Int.natAbs

/-- One GPX trackpoint as produced by `PhotoGeoTagger.parse_gpx_file`:
latitude, longitude, optional elevation and a timestamp.  The unused
`speed` key of the Python dict is omitted.  Degrees and meters are
embedded as rationals. -/
structure Trackpoint where
  latitude : ℚ
  longitude : ℚ
  elevation : Option ℚ
  time : Timestamp
  deriving DecidableEq, Repr

/-- `find_closest_trackpoint` first strips timezone information from a
trackpoint time: `gpx_time.replace(tzinfo=None)` keeps the wall-clock
fields and drops the offset. -/
def normalizeGpxTime (t : Timestamp) : Timestamp :=
  if t.tz.isSome then { t with tz := none } else t

/-- The comparison `time_diff < min_diff` where `min_diff` starts as
`float(\x27inf\x27)`; `none` stands for infinity. -/
def diffBeatsMin (d : Nat) : Option Nat → Bool
  | none => true
  | some m => decide (d < m)

/-- The scanning loop of `PhotoGeoTagger.find_closest_trackpoint`
(photo_processor.py lines 82-97).  The state carries `min_diff` and
`closest_point`; an aware/naive subtraction aborts the whole call with
an error, as the uncaught `TypeError` does in Python. -/
def findClosestAux (photo : Timestamp) (tol : Int) :
    List Trackpoint → Option Nat → Option Trackpoint → Except Unit (Option Trackpoint)
  | [], _, closest => .ok closest
  | p :: rest, minDiff, closest =>
    match timeDiffSec photo (normalizeGpxTime p.time) with
    | none => .error ()
    | some d =>
      if diffBeatsMin d minDiff = true ∧ (d : Int) ≤ tol then
        findClosestAux photo tol rest (some d) (some p)
      else
        findClosestAux photo tol rest minDiff closest

/-- `PhotoGeoTagger.find_closest_trackpoint(photo_timestamp, trackpoints,
tolerance_seconds)` (photo_processor.py lines 76-97).  Returns `.ok none`
both for an empty list and when no sample passes the tolerance test, and
`.error ()` when an aware/naive timestamp mixture is subtracted. -/
def findClosestTrackpoint (photoTimestamp : Timestamp) (trackpoints : List Trackpoint)
    (toleranceSeconds : Int) : Except Unit (Option Trackpoint) :=
  if trackpoints.isEmpty then .ok none
  else findClosestAux photoTimestamp toleranceSeconds trackpoints none none

/-- A trackpoint whose (normalized) time is within `tol` seconds of the
query timestamp. -/
def withinTolerance (photo : Timestamp) (tol : Int) (p : Trackpoint) : Prop :=
  ∃ d, timeDiffSec photo (normalizeGpxTime p.time) = some d ∧ (d : Int) ≤ tol

instance {ε α : Type} [DecidableEq ε] [DecidableEq α] : DecidableEq (Except ε α) := fun a b =>
  match a, b with
  | .ok x, .ok y =>
    if h : x = y then isTrue (by rw [h]) else isFalse (fun hh => h (Except.ok.inj hh))
  | .error x, .error y =>
    if h : x = y then isTrue (by rw [h]) else isFalse (fun hh => h (Except.error.inj hh))
  | .ok _, .error _ => isFalse (fun hh => Except.noConfusion hh)
  | .error _, .ok _ => isFalse (fun hh => Except.noConfusion hh)

lemma findClosestAux_sound (photo : Timestamp) (tol : Int) :
    ∀ (pts : List Trackpoint) (minDiff : Option Nat) (closest : Option Trackpoint)
      (p : Trackpoint),
      findClosestAux photo tol pts minDiff closest = .ok (some p) →
      (p ∈ pts ∧ withinTolerance photo tol p) ∨ closest = some p := by
  intro pts
  induction pts with
  | nil =>
    intro minDiff closest p h
    right
    exact Except.ok.inj h
  | cons q rest ih =>
    intro minDiff closest p h
    rw [findClosestAux] at h
    cases hd : timeDiffSec photo (normalizeGpxTime q.time) with
    | none => rw [hd] at h; exact absurd h (by simp)
    | some d =>
      rw [hd] at h
      have h2 : (if diffBeatsMin d minDiff = true ∧ (d : Int) ≤ tol then
          findClosestAux photo tol rest (some d) (some q)
        else findClosestAux photo tol rest minDiff closest) = .ok (some p) := h
      by_cases hc : diffBeatsMin d minDiff = true ∧ (d : Int) ≤ tol
      · rw [if_pos hc] at h2
        rcases ih (some d) (some q) p h2 with ⟨hmem, hw⟩ | heq
        · exact Or.inl ⟨List.mem_cons_of_mem _ hmem, hw⟩
        · refine Or.inl ⟨?_, ?_⟩
          · rw [← Option.some.inj heq]; exact List.mem_cons_self _ _
          · rw [← Option.some.inj heq]
            exact ⟨d, hd, hc.2⟩
      · rw [if_neg hc] at h2
        rcases ih minDiff closest p h2 with ⟨hmem, hw⟩ | heq
        · exact Or.inl ⟨List.mem_cons_of_mem _ hmem, hw⟩
        · exact Or.inr heq

lemma findClosestAux_all_exceed (photo : Timestamp) (tol : Int) :
    ∀ (pts : List Trackpoint) (minDiff : Option Nat) (closest : Option Trackpoint),
      (∀ p ∈ pts, ∃ d, timeDiffSec photo (normalizeGpxTime p.time) = some d ∧
        tol < (d : Int)) →
      findClosestAux photo tol pts minDiff closest = .ok closest := by
  intro pts
  induction pts with
  | nil => intro minDiff closest _; rfl
  | cons q rest ih =>
    intro minDiff closest hall
    obtain ⟨d, hd, hgt⟩ := hall q (List.mem_cons_self _ _)
    rw [findClosestAux, hd]
    show (if diffBeatsMin d minDiff = true ∧ (d : Int) ≤ tol then
        findClosestAux photo tol rest (some d) (some q)
      else findClosestAux photo tol rest minDiff closest) = Except.ok closest
    rw [if_neg]
    · exact ih minDiff closest (fun p hp => hall p (List.mem_cons_of_mem _ hp))
    · intro hc
      exact absurd hc.2 (not_le.mpr hgt)

/-- C1: for every trackpoint list, query timestamp and tolerance,
`find_closest_trackpoint` never returns a sample whose absolute time
difference from the query exceeds the tolerance; on an empty list, or
when every sample difference exceeds the tolerance, it returns `none`
as a valid outcome rather than an error. -/
theorem C1_find_closest_tolerance (photo : Timestamp) (pts : List Trackpoint) (tol : Int) :
    (∀ p, findClosestTrackpoint photo pts tol = .ok (some p) →
      p ∈ pts ∧ withinTolerance photo tol p)
    ∧ (pts = [] → findClosestTrackpoint photo pts tol = .ok none)
    ∧ ((∀ p ∈ pts, ∃ d, timeDiffSec photo (normalizeGpxTime p.time) = some d ∧
        tol < (d : Int)) →
      findClosestTrackpoint photo pts tol = .ok none) := by
  refine ⟨?_, ?_, ?_⟩
  · intro p h
    rw [findClosestTrackpoint] at h
    by_cases he : pts.isEmpty
    · rw [if_pos he] at h
      exact absurd (Except.ok.inj h) (by simp)
    · rw [if_neg he] at h
      rcases findClosestAux_sound photo tol pts none none p h with hok | hbad
      · exact hok
      · exact absurd hbad (by simp)
  · intro he
    rw [findClosestTrackpoint, if_pos (by rw [he]; rfl)]
  · intro hall
    rw [findClosestTrackpoint]
    by_cases he : pts.isEmpty
    · rw [if_pos he]
    · rw [if_neg he]
      exact findClosestAux_all_exceed photo tol pts none none hall

/-- Witness for C1: the empty trackpoint list yields `none`, not an
error. -/
theorem C1_find_closest_tolerance_witness :
    findClosestTrackpoint ⟨0, none⟩ [] 30 = .ok none :=
  (C1_find_closest_tolerance ⟨0, none⟩ [] 30).2.1 rfl

/-- The three-sample track of the spec scenarios: points at seconds 0,
300 and 600 with naive timestamps and no elevation channel. -/
def samplePt0 : Trackpoint := ⟨37.7749, -122.4194, none, ⟨0, none⟩⟩

def samplePt1 : Trackpoint := ⟨37.7750, -122.4195, none, ⟨300, none⟩⟩

def samplePt2 : Trackpoint := ⟨37.7751, -122.4196, none, ⟨600, none⟩⟩

def sampleTrack : List Trackpoint := [samplePt0, samplePt1, samplePt2]

/-- C2 counterexample: a query at t=150 with tolerance 200 does not
return the sample at t=300.  The samples at t=0 and t=300 tie at 150
seconds and the strict `time_diff < min_diff` test keeps the first one
encountered, the sample at t=0. -/
theorem C2_counterexample :
    findClosestTrackpoint ⟨150, none⟩ sampleTrack 200 ≠
      .ok (some ⟨37.7750, -122.4195, none, ⟨300, none⟩⟩) := by
  intro h
  have h0 : findClosestTrackpoint ⟨150, none⟩ sampleTrack 200 =
      .ok (some ⟨37.7749, -122.4194, none, ⟨0, none⟩⟩) := rfl
  rw [h0] at h
  have h1 := Option.some.inj (Except.ok.inj h)
  have h2 : (0 : Int) = 300 := congrArg (fun p : Trackpoint => p.time.wall) h1
  exact absurd h2 (by norm_num)

/-- C2 (amended): against the sample track a query at t=150 with
tolerance 30 returns no match, and with tolerance 200 returns the sample
at t=0, which ties with the sample at t=300 at 150 seconds and wins the
arrival-order tie-break. -/
theorem C2_amended :
    findClosestTrackpoint ⟨150, none⟩ sampleTrack 30 = .ok none
    ∧ findClosestTrackpoint ⟨150, none⟩ sampleTrack 200 =
        .ok (some ⟨37.7749, -122.4194, none, ⟨0, none⟩⟩) :=
  ⟨rfl, rfl⟩

lemma normalizeGpxTime_tz (t : Timestamp) : (normalizeGpxTime t).tz = none := by
  rw [normalizeGpxTime]
  by_cases h : t.tz.isSome
  · rw [if_pos h]
  · rw [if_neg h]
    exact Option.not_isSome_iff_eq_none.mp h

/-- C3: when the query timestamp is timezone-aware and a sample is
present, the comparison happens against a (stripped, hence naive)
sample time without normalizing the query, and the matcher fails fast
with an error instead of silently computing a wrong delta. -/
theorem C3_timestamp_mismatch (photo : Timestamp) (pts : List Trackpoint) (tol : Int)
    (haware : photo.tz.isSome = true) (hne : pts ≠ []) :
    findClosestTrackpoint photo pts tol = .error () := by
  match pts, hne with
  | p :: rest, _ =>
    rw [findClosestTrackpoint, if_neg (by simp), findClosestAux]
    have hnone : timeDiffSec photo (normalizeGpxTime p.time) = none := by
      rw [timeDiffSec, datetimeSub, normalizeGpxTime_tz]
      obtain ⟨o, ho⟩ := Option.isSome_iff_exists.mp haware
      rw [ho]
      rfl
    rw [hnone]

/-- Witness for C3: an aware query over a one-point naive track errors. -/
theorem C3_timestamp_mismatch_witness :
    findClosestTrackpoint ⟨0, some 0⟩ [⟨0, 0, none, ⟨0, none⟩⟩] 30 = .error () :=
  C3_timestamp_mismatch ⟨0, some 0⟩ [⟨0, 0, none, ⟨0, none⟩⟩] 30 rfl (by simp)

/-! ## Track metrics aggregator (`StravaAssistant._extract_activity_data`) -/

/-- Modelled from the spec: the repository computes the distance between
consecutive samples with `geopy.distance.geodesic(...).meters`, an
external library routine whose source is not part of this repository.
The spec requires a standard ellipsoidal or spherical geodesic formula,
Haversine at minimum, which is what we embed: the great-circle distance
in meters on a sphere of radius 6371 km. -/
noncomputable def geodesicMeters (p q : Trackpoint) : ℝ :=
  2 * 6371000 * Real.arcsin (Real.sqrt (
    Real.sin (((q.latitude - p.latitude : ℚ) : ℝ) * Real.pi / 180 / 2) ^ 2 +
    Real.cos ((p.latitude : ℝ) * Real.pi / 180) *
      Real.cos ((q.latitude : ℝ) * Real.pi / 180) *
      Real.sin (((q.longitude - p.longitude : ℚ) : ℝ) * Real.pi / 180 / 2) ^ 2))

/-- Python truthiness of an elevation value, as tested by
`if point[\x27elevation\x27] and prev_point[\x27elevation\x27]`:
`None` and `0.0` are falsy, every other float is truthy. -/
def elevTruthy : Option ℚ → Bool
  | none => false
  | some v => decide (v ≠ 0)

/-- One pair-step of the elevation-gain accumulation
(strava_assistant.py lines 443-447). -/
def elevGainStep (gain : ℚ) (prev p : Trackpoint) : ℚ :=
  if elevTruthy p.elevation && elevTruthy prev.elevation then
    (if 0 < p.elevation.getD 0 - prev.elevation.getD 0 then
      gain + (p.elevation.getD 0 - prev.elevation.getD 0)
    else gain)
  else gain

/-- Loop state of `_extract_activity_data`: `total_distance`,
`total_time`, `elevation_gain` and the list of instantaneous speeds. -/
structure AggState where
  totalDistance : ℝ
  totalTime : Int
  elevationGain : ℚ
  speeds : List ℝ

def initAggState : AggState := ⟨0, 0, 0, []⟩

/-- The pairwise accumulation loop of `_extract_activity_data`
(strava_assistant.py lines 422-449), walking consecutive pairs with
`prev_point` threaded through.  A mixed aware/naive time subtraction
raises in Python and is modeled by the error case. -/
noncomputable def aggLoop : Trackpoint → List Trackpoint → AggState → Except Unit AggState
  | _, [], st => .ok st
  | prev, p :: rest, st =>
    match datetimeSub p.time prev.time with
    | none => .error ()
    | some td =>
      let dist := geodesicMeters prev p
      let speeds := if 0 < td then st.speeds ++ [dist / (td : ℝ) * 3.6] else st.speeds
      aggLoop p rest
        ⟨st.totalDistance + dist, st.totalTime + td,
          elevGainStep st.elevationGain prev p, speeds⟩

/-- `avg_speed = sum(speeds) / len(speeds) if speeds else 0`. -/
noncomputable def averageOf (speeds : List ℝ) : ℝ :=
  if speeds.isEmpty then 0 else speeds.sum / (speeds.length : ℝ)

/-- The returned activity dict of `_extract_activity_data`: distance in
meters, duration in seconds, average speed in km/h, elevation gain in
meters, start and end times. -/
structure ActivityMetrics where
  distance : ℝ
  duration : Int
  averageSpeed : ℝ
  elevationGain : ℚ
  startTime : Timestamp
  endTime : Timestamp

/-- `StravaAssistant._extract_activity_data` (strava_assistant.py lines
408-465) restricted to its pure core: the caller parses the GPX file
into `trackpoints`; an empty list returns the empty dict (`none` here,
lines 413-414), and any exception raised inside the loop (the
aware/naive `TypeError`) is caught at line 463 and also yields the
empty dict. -/
noncomputable def extractActivityData : List Trackpoint → Option ActivityMetrics
  | [] => none
  | p :: rest =>
    match aggLoop p rest initAggState with
    | .error _ => none
    | .ok st =>
      some ⟨st.totalDistance, st.totalTime, averageOf st.speeds, st.elevationGain,
        p.time, ((p :: rest).getLast (List.cons_ne_nil p rest)).time⟩

/-- The elevation contribution of one consecutive pair: the delta when
both endpoints are truthy and the delta is positive, zero otherwise. -/
def gainAmount (prev p : Trackpoint) : ℚ :=
  if elevTruthy p.elevation && elevTruthy prev.elevation then
    (if 0 < p.elevation.getD 0 - prev.elevation.getD 0 then
      p.elevation.getD 0 - prev.elevation.getD 0
    else 0)
  else 0

/-- The sum of per-pair elevation contributions over consecutive pairs. -/
def elevationGainSpec : Trackpoint → List Trackpoint → ℚ
  | _, [] => 0
  | prev, p :: rest => gainAmount prev p + elevationGainSpec p rest

lemma elevGainStep_eq (gain : ℚ) (prev p : Trackpoint) :
    elevGainStep gain prev p = gain + gainAmount prev p := by
  rw [elevGainStep, gainAmount]
  by_cases h1 : elevTruthy p.elevation && elevTruthy prev.elevation
  · rw [if_pos h1, if_pos h1]
    by_cases h2 : 0 < p.elevation.getD 0 - prev.elevation.getD 0
    · rw [if_pos h2, if_pos h2]
    · rw [if_neg h2, if_neg h2, add_zero]
  · rw [if_neg h1, if_neg h1, add_zero]

lemma aggLoop_gain : ∀ (rest : List Trackpoint) (prev : Trackpoint) (st st2 : AggState),
    aggLoop prev rest st = .ok st2 →
    st2.elevationGain = st.elevationGain + elevationGainSpec prev rest := by
  intro rest
  induction rest with
  | nil =>
    intro prev st st2 h
    rw [← Except.ok.inj h, elevationGainSpec, add_zero]
  | cons p tail ih =>
    intro prev st st2 h
    rw [aggLoop] at h
    cases hd : datetimeSub p.time prev.time with
    | none =>
      rw [hd] at h
      exact absurd h (by simp)
    | some td =>
      rw [hd] at h
      have h2 := ih p _ st2 h
      rw [elevationGainSpec]
      rw [h2]
      show elevGainStep st.elevationGain prev p + elevationGainSpec p tail =
        st.elevationGain + (gainAmount prev p + elevationGainSpec p tail)
      rw [elevGainStep_eq]
      ring

lemma gainAmount_nonneg (prev p : Trackpoint) : 0 ≤ gainAmount prev p := by
  rw [gainAmount]
  by_cases h1 : elevTruthy p.elevation && elevTruthy prev.elevation
  · rw [if_pos h1]
    by_cases h2 : 0 < p.elevation.getD 0 - prev.elevation.getD 0
    · rw [if_pos h2]; exact le_of_lt h2
    · rw [if_neg h2]
  · rw [if_neg h1]

/-- The three-point track with elevation channel [100, 90, 120] of the
C5 scenario. -/
def elevPtA : Trackpoint := ⟨0, 0, some 100, ⟨0, none⟩⟩

def elevPtB : Trackpoint := ⟨0, 0, some 90, ⟨1, none⟩⟩

def elevPtC : Trackpoint := ⟨0, 0, some 120, ⟨2, none⟩⟩

def elevSampleTrack : List Trackpoint := [elevPtA, elevPtB, elevPtC]

/-- C5: the aggregator counts a consecutive pair into the elevation gain
only when the delta is positive (descents contribute nothing), the total
gain is the sum of the per-pair contributions, and the track with
elevations [100, 90, 120] yields an elevation gain of 30. -/
theorem C5_elevation_gain_positive_only :
    (∀ prev p, 0 < gainAmount prev p →
      ∃ e1 e2, prev.elevation = some e1 ∧ p.elevation = some e2 ∧
        0 < e2 - e1 ∧ gainAmount prev p = e2 - e1)
    ∧ (∀ prev p, 0 ≤ gainAmount prev p)
    ∧ (∀ (p : Trackpoint) (rest : List Trackpoint) (m : ActivityMetrics),
        extractActivityData (p :: rest) = some m →
        m.elevationGain = elevationGainSpec p rest)
    ∧ (∃ m, extractActivityData elevSampleTrack = some m ∧ m.elevationGain = 30) := by
  refine ⟨?_, gainAmount_nonneg, ?_, ?_⟩
  · intro prev p hpos
    rw [gainAmount] at hpos ⊢
    by_cases h1 : elevTruthy p.elevation && elevTruthy prev.elevation
    · rw [if_pos h1] at hpos ⊢
      by_cases h2 : 0 < p.elevation.getD 0 - prev.elevation.getD 0
      · rw [if_pos h2]
        have hp : elevTruthy p.elevation = true := (Bool.and_eq_true _ _ |>.mp h1).1
        have hprev : elevTruthy prev.elevation = true := (Bool.and_eq_true _ _ |>.mp h1).2
        cases hpe : prev.elevation with
        | none => rw [hpe] at hprev; exact absurd hprev (by rw [elevTruthy]; simp)
        | some e1 =>
          cases hqe : p.elevation with
          | none => rw [hqe] at hp; exact absurd hp (by rw [elevTruthy]; simp)
          | some e2 =>
            refine ⟨e1, e2, rfl, rfl, ?_, ?_⟩
            · rw [hpe, hqe] at h2
              simpa using h2
            · simp
      · rw [if_neg h2] at hpos
        exact absurd hpos (by norm_num)
    · rw [if_neg h1] at hpos
      exact absurd hpos (by norm_num)
  · intro p rest m h
    rw [extractActivityData] at h
    cases hagg : aggLoop p rest initAggState with
    | error e =>
      rw [hagg] at h
      exact absurd h (by simp)
    | ok st =>
      rw [hagg] at h
      have hm : m.elevationGain = st.elevationGain := by
        have := Option.some.inj h
        rw [← this]
      rw [hm, aggLoop_gain rest p initAggState st hagg]
      show (0 : ℚ) + elevationGainSpec p rest = elevationGainSpec p rest
      rw [zero_add]
  · refine ⟨_, rfl, ?_⟩
    show elevGainStep (elevGainStep 0 elevPtA elevPtB) elevPtB elevPtC = 30
    norm_num [elevGainStep, elevTruthy, elevPtA, elevPtB, elevPtC]

/-- Witness for C5: the 90 to 120 ascent is counted as a positive delta
of 30. -/
theorem C5_elevation_gain_positive_only_witness :
    (0 : ℚ) < gainAmount elevPtB elevPtC ∧
    ∃ e1 e2, elevPtB.elevation = some e1 ∧ elevPtC.elevation = some e2 ∧
      0 < e2 - e1 ∧ gainAmount elevPtB elevPtC = e2 - e1 :=
  ⟨by norm_num [gainAmount, elevTruthy, elevPtB, elevPtC],
    C5_elevation_gain_positive_only.1 elevPtB elevPtC
      (by norm_num [gainAmount, elevTruthy, elevPtB, elevPtC])⟩

/-- The two-point track with elevations [0, 100] of the C10 scenario. -/
def zeroElevTrack : List Trackpoint :=
  [⟨0, 0, some 0, ⟨0, none⟩⟩, ⟨0, 0, some 100, ⟨1, none⟩⟩]

/-- C10: a consecutive pair contributes nothing to the elevation gain
when either endpoint has elevation 0 (falsy in Python) or no elevation
at all; in particular the track with elevations [0, 100] yields an
elevation gain of 0, not 100. -/
theorem C10_zero_elevation_skipped :
    (∀ prev p, (p.elevation = none ∨ p.elevation = some 0 ∨
        prev.elevation = none ∨ prev.elevation = some 0) →
      gainAmount prev p = 0)
    ∧ (∃ m, extractActivityData zeroElevTrack = some m ∧ m.elevationGain = 0) := by
  constructor
  · intro prev p hcase
    rw [gainAmount, if_neg]
    intro hand
    have hp : elevTruthy p.elevation = true := (Bool.and_eq_true _ _ |>.mp hand).1
    have hprev : elevTruthy prev.elevation = true := (Bool.and_eq_true _ _ |>.mp hand).2
    rcases hcase with h | h | h | h
    · rw [h] at hp; exact absurd hp (by rw [elevTruthy]; simp)
    · rw [h] at hp; exact absurd hp (by rw [elevTruthy]; simp)
    · rw [h] at hprev; exact absurd hprev (by rw [elevTruthy]; simp)
    · rw [h] at hprev; exact absurd hprev (by rw [elevTruthy]; simp)
  · refine ⟨_, rfl, ?_⟩
    show elevGainStep 0 ⟨0, 0, some 0, ⟨0, none⟩⟩ ⟨0, 0, some 100, ⟨1, none⟩⟩ = 0
    norm_num [elevGainStep, elevTruthy]

/-- Witness for C10: the pair with elevations 0 and 100 is skipped. -/
theorem C10_zero_elevation_skipped_witness :
    gainAmount ⟨0, 0, some 0, ⟨0, none⟩⟩ ⟨0, 0, some 100, ⟨1, none⟩⟩ = 0 :=
  C10_zero_elevation_skipped.1 _ _ (Or.inr (Or.inr (Or.inr rfl)))

/-! ## Session grouper (`StravaAssistant._group_photos_with_activities`) -/

/-- One entry of `self.pending_photos` (strava_assistant.py lines
99-106): the file path, the `datetime.now()` queue timestamp (a naive
wall-clock instant, embedded as seconds) and the `processed` flag. -/
structure PhotoEntry where
  path : String
  timestamp : Int
  processed : Bool
  deriving DecidableEq, Repr

/-- One entry of `self.recent_activities` (lines 118-123), reduced to
the fields the grouping pass reads: the parsed `start_date` of the
activity summary (wall-clock seconds) and the `processed` flag. -/
structure ActivityEntry where
  activityId : Nat
  startDate : Int
  processed : Bool
  deriving DecidableEq, Repr

/-- One session candidate dict built at lines 166-170. -/
structure SessionCandidate where
  activity : ActivityEntry
  photos : List PhotoEntry
  sessionId : String
  deriving DecidableEq, Repr

/-- The membership test of the grouping loop (lines 160-162):
`abs((photo_time - activity_time).total_seconds()) / 3600` is at most
`time_window_hours`. -/
def photoWithinWindow (w : Int) (a : ActivityEntry) (p : PhotoEntry) : Bool :=
  decide ((((p.timestamp - a.startDate).natAbs : ℚ) / 3600) ≤ (w : ℚ))

/-- The inner loop of the grouping pass: the unprocessed pending photos
within the window of one activity, in queue order. -/
def sessionPhotosFor (pending : List PhotoEntry) (w : Int) (a : ActivityEntry) :
    List PhotoEntry :=
  pending.filter (fun p => !p.processed && photoWithinWindow w a p)

/-- The outer loop of `_group_photos_with_activities` (strava_assistant.py
lines 142-172).  `clock n` is the `datetime.now().strftime(...)` string
read when the n-th session of the pass is created; the format has
one-second resolution, so consecutive reads may coincide. -/
def groupAux (w : Int) (clock : Nat → String) (pending : List PhotoEntry) :
    List ActivityEntry → List SessionCandidate → List SessionCandidate
  | [], sessions => sessions
  | a :: rest, sessions =>
    if a.processed then groupAux w clock pending rest sessions
    else
      if (sessionPhotosFor pending w a).isEmpty then groupAux w clock pending rest sessions
      else groupAux w clock pending rest
        (sessions ++ [⟨a, sessionPhotosFor pending w a, "session_" ++ clock sessions.length⟩])

/-- `StravaAssistant._group_photos_with_activities`. -/
def groupPhotosWithActivities (recentActivities : List ActivityEntry)
    (pendingPhotos : List PhotoEntry) (clock : Nat → String) (windowHours : Int) :
    List SessionCandidate :=
  groupAux windowHours clock pendingPhotos recentActivities []

lemma groupAux_subset (w : Int) (clock : Nat → String) (pending : List PhotoEntry) :
    ∀ (acts : List ActivityEntry) (acc : List SessionCandidate) (s : SessionCandidate),
      s ∈ acc → s ∈ groupAux w clock pending acts acc := by
  intro acts
  induction acts with
  | nil => intro acc s hs; exact hs
  | cons a rest ih =>
    intro acc s hs
    rw [groupAux]
    by_cases hp : a.processed
    · rw [if_pos hp]; exact ih acc s hs
    · rw [if_neg hp]
      by_cases he : (sessionPhotosFor pending w a).isEmpty
      · rw [if_pos he]; exact ih acc s hs
      · rw [if_neg he]
        exact ih _ s (List.mem_append_left _ hs)

lemma groupAux_mem (w : Int) (clock : Nat → String) (pending : List PhotoEntry) :
    ∀ (acts : List ActivityEntry) (acc : List SessionCandidate) (s : SessionCandidate),
      s ∈ groupAux w clock pending acts acc →
      s ∈ acc ∨ ∃ a ∈ acts, a.processed = false ∧ s.activity = a ∧
        s.photos = sessionPhotosFor pending w a := by
  intro acts
  induction acts with
  | nil => intro acc s hs; exact Or.inl hs
  | cons a rest ih =>
    intro acc s hs
    rw [groupAux] at hs
    by_cases hp : a.processed
    · rw [if_pos hp] at hs
      rcases ih acc s hs with h | ⟨b, hb, h⟩
      · exact Or.inl h
      · exact Or.inr ⟨b, List.mem_cons_of_mem _ hb, h⟩
    · rw [if_neg hp] at hs
      by_cases he : (sessionPhotosFor pending w a).isEmpty
      · rw [if_pos he] at hs
        rcases ih acc s hs with h | ⟨b, hb, h⟩
        · exact Or.inl h
        · exact Or.inr ⟨b, List.mem_cons_of_mem _ hb, h⟩
      · rw [if_neg he] at hs
        rcases ih _ s hs with h | ⟨b, hb, h⟩
        · rcases List.mem_append.mp h with h2 | h2
          · exact Or.inl h2
          · rcases List.mem_singleton.mp h2 with rfl
            exact Or.inr ⟨a, List.mem_cons_self _ _,
              Bool.of_not_eq_true hp, rfl, rfl⟩
        · exact Or.inr ⟨b, List.mem_cons_of_mem _ hb, h⟩

lemma groupAux_exists (w : Int) (clock : Nat → String) (pending : List PhotoEntry) :
    ∀ (acts : List ActivityEntry) (acc : List SessionCandidate) (a : ActivityEntry),
      a ∈ acts → a.processed = false → sessionPhotosFor pending w a ≠ [] →
      ∃ s ∈ groupAux w clock pending acts acc, s.activity = a ∧
        s.photos = sessionPhotosFor pending w a := by
  intro acts
  induction acts with
  | nil => intro acc a ha; exact absurd ha (List.not_mem_nil a)
  | cons b rest ih =>
    intro acc a ha hproc hne
    rcases List.mem_cons.mp ha with rfl | hmem
    · rw [groupAux, if_neg (by rw [hproc]; exact Bool.false_ne_true),
        if_neg (by rwa [ne_eq, ← List.isEmpty_iff] at hne)]
      refine ⟨⟨a, sessionPhotosFor pending w a, "session_" ++ clock acc.length⟩,
        groupAux_subset w clock pending rest _ _ (List.mem_append_right _ ?_), rfl, rfl⟩
      exact List.mem_singleton.mpr rfl
    · rw [groupAux]
      by_cases hp : b.processed
      · rw [if_pos hp]; exact ih acc a hmem hproc hne
      · rw [if_neg hp]
        by_cases he : (sessionPhotosFor pending w b).isEmpty
        · rw [if_pos he]; exact ih acc a hmem hproc hne
        · rw [if_neg he]; exact ih _ a hmem hproc hne

/-- C6: the grouping pass is idempotent with respect to committed items:
no candidate session contains a processed activity or photo, and for an
unprocessed activity an unprocessed pending photo lands in that
activity's candidate session if and only if its timestamp is within
`window_hours` (inclusive) of the activity start. -/
theorem C6_grouping_idempotent_window (acts : List ActivityEntry)
    (pending : List PhotoEntry) (clock : Nat → String) (w : Int) :
    (∀ s ∈ groupPhotosWithActivities acts pending clock w,
      s.activity.processed = false ∧ ∀ p ∈ s.photos, p.processed = false)
    ∧ (∀ a ∈ acts, a.processed = false → ∀ p ∈ pending, p.processed = false →
        ((∃ s ∈ groupPhotosWithActivities acts pending clock w,
            s.activity = a ∧ p ∈ s.photos) ↔ photoWithinWindow w a p = true)) := by
  constructor
  · intro s hs
    rcases groupAux_mem w clock pending acts [] s hs with h | ⟨a, _, hproc, hact, hph⟩
    · exact absurd h (List.not_mem_nil s)
    · refine ⟨by rw [hact]; exact hproc, ?_⟩
      intro p hp
      rw [hph] at hp
      have := (List.mem_filter.mp hp).2
      have h1 : (!p.processed) = true := (Bool.and_eq_true _ _ |>.mp this).1
      simpa using h1
  · intro a ha haproc p hp hpproc
    constructor
    · rintro ⟨s, hs, hact, hps⟩
      rcases groupAux_mem w clock pending acts [] s hs with h | ⟨b, _, _, hact2, hph⟩
      · exact absurd h (List.not_mem_nil s)
      · have hab : b = a := by rw [← hact2, hact]
        rw [hph, hab] at hps
        have := (List.mem_filter.mp hps).2
        exact (Bool.and_eq_true _ _ |>.mp this).2
    · intro hw
      have hpmem : p ∈ sessionPhotosFor pending w a := by
        rw [sessionPhotosFor]
        refine List.mem_filter.mpr ⟨hp, ?_⟩
        rw [hpproc, hw]
        rfl
      obtain ⟨s, hs, hact, hph⟩ := groupAux_exists w clock pending acts [] a ha haproc
        (List.ne_nil_of_mem hpmem)
      exact ⟨s, hs, hact, by rw [hph]; exact hpmem⟩

/-- Witness for C6: one unprocessed activity at t=0 and one unprocessed
photo ten minutes later are grouped into a session. -/
theorem C6_grouping_idempotent_window_witness :
    ∃ s ∈ groupPhotosWithActivities [⟨1, 0, false⟩] [⟨"p.jpg", 600, false⟩]
        (fun _ => "t") 3,
      s.activity = ⟨1, 0, false⟩ ∧ (⟨"p.jpg", 600, false⟩ : PhotoEntry) ∈ s.photos :=
  ((C6_grouping_idempotent_window [⟨1, 0, false⟩] [⟨"p.jpg", 600, false⟩]
      (fun _ => "t") 3).2 ⟨1, 0, false⟩ (List.mem_singleton.mpr rfl) rfl
      ⟨"p.jpg", 600, false⟩ (List.mem_singleton.mpr rfl) rfl).mpr
    (by rw [photoWithinWindow]; norm_num)

/-- A clock whose reads all fall within the same second, a possible
execution of `datetime.now().strftime(\x27%Y%m%d_%H%M%S\x27)`. -/
def dupClock : Nat → String := fun _ => "20240101_120000"

/-- Two unprocessed activities whose windows both contain the single
pending photo, grouped under the constant-second clock. -/
def dupSessions : List SessionCandidate :=
  groupPhotosWithActivities [⟨1, 0, false⟩, ⟨2, 1000, false⟩]
    [⟨"p.jpg", 500, false⟩] dupClock 3

/-- Commit-time persistence of a session record
(`_process_session_with_activity`, strava_assistant.py lines 187-189 and
250-252): the session directory is created with `exist_ok=True` and
`session_results.json` is opened for writing, so the session store
behaves as a map keyed by session id with last-write-wins semantics and
no collision check. -/
def writeSessionResults {α : Type} (store : List (String × α)) (id : String)
    (data : α) : List (String × α) :=
  store.filter (fun e => !(e.1 == id)) ++ [(id, data)]

/-- C7 counterexample: a single grouping pass whose clock reads fall in
the same second commits two sessions with identical ids; id generation
is not collision-free. -/
theorem C7_counterexample :
    dupSessions.length = 2 ∧ ¬ (dupSessions.map SessionCandidate.sessionId).Nodup := by
  have h1 : photoWithinWindow 3 ⟨1, 0, false⟩ ⟨"p.jpg", 500, false⟩ = true := by
    rw [photoWithinWindow]; norm_num
  have h2 : photoWithinWindow 3 ⟨2, 1000, false⟩ ⟨"p.jpg", 500, false⟩ = true := by
    rw [photoWithinWindow]; norm_num
  have hmap : dupSessions =
      [⟨⟨1, 0, false⟩, [⟨"p.jpg", 500, false⟩], "session_20240101_120000"⟩,
       ⟨⟨2, 1000, false⟩, [⟨"p.jpg", 500, false⟩], "session_20240101_120000"⟩] := by
    rw [dupSessions, groupPhotosWithActivities]
    rw [groupAux]
    rw [if_neg (by exact Bool.false_ne_true), if_neg (by
      rw [sessionPhotosFor, List.filter, h1]
      simp)]
    rw [groupAux]
    rw [if_neg (by exact Bool.false_ne_true), if_neg (by
      rw [sessionPhotosFor, List.filter, h2]
      simp)]
    rw [groupAux]
    simp [sessionPhotosFor, h1, h2, dupClock]
  rw [hmap]
  refine ⟨rfl, ?_⟩
  decide

/-- C7 (amended): session ids are the wall-clock second at candidate
creation, so sessions created in the same second share one id, and
committing a session whose id already exists silently overwrites the
stored record with the new data instead of failing. -/
theorem C7_amended :
    (dupSessions.map SessionCandidate.sessionId =
      ["session_20240101_120000", "session_20240101_120000"])
    ∧ ∀ (α : Type) (store : List (String × α)) (id : String) (d1 d2 : α),
        (writeSessionResults (writeSessionResults store id d1) id d2).filter
          (fun e => e.1 == id) = [(id, d2)] := by
  constructor
  · have h1 : photoWithinWindow 3 ⟨1, 0, false⟩ ⟨"p.jpg", 500, false⟩ = true := by
      rw [photoWithinWindow]; norm_num
    have h2 : photoWithinWindow 3 ⟨2, 1000, false⟩ ⟨"p.jpg", 500, false⟩ = true := by
      rw [photoWithinWindow]; norm_num
    rw [dupSessions, groupPhotosWithActivities]
    rw [groupAux]
    rw [if_neg (by exact Bool.false_ne_true), if_neg (by
      rw [sessionPhotosFor, List.filter, h1]
      simp)]
    rw [groupAux]
    rw [if_neg (by exact Bool.false_ne_true), if_neg (by
      rw [sessionPhotosFor, List.filter, h2]
      simp)]
    rw [groupAux]
    simp [dupClock]
  · intro α store id d1 d2
    rw [writeSessionResults, writeSessionResults]
    rw [List.filter_append, List.filter_append, List.filter_filter]
    simp

/-! ## Caption composer (`StravaCaptionGenerator`) -/

/-- Round a rational to the nearest integer with ties to even, the
rounding used by Python float formatting in f-strings. -/
def roundHalfEven (q : ℚ) : Int :=
  if q - Int.floor q < 1/2 then Int.floor q
  else if 1/2 < q - Int.floor q then Int.floor q + 1
  else if Int.floor q % 2 = 0 then Int.floor q else Int.floor q + 1

/-- Python `.0f` formatting of a nonnegative value. -/
def fmtF0 (q : ℚ) : String := toString (roundHalfEven q)

/-- Python `.1f` formatting of a nonnegative value: one digit after the
decimal point. -/
def fmtF1 (q : ℚ) : String :=
  toString (roundHalfEven (10 * q) / 10) ++ "." ++ toString (roundHalfEven (10 * q) % 10)

/-- `StravaCaptionGenerator.format_distance` (caption_generator.py lines
113-121): `km = distance_meters / 1000`; below one kilometer the meter
value is rendered with an m suffix, an integral km value drops the
decimal, otherwise one decimal is kept.  `km.is_integer()` is embedded
as the reduced denominator being 1. -/
def formatDistance (distanceMeters : ℚ) : String :=
  if distanceMeters / 1000 < 1 then fmtF0 distanceMeters ++ "m"
  else if (distanceMeters / 1000).den = 1 then fmtF0 (distanceMeters / 1000) ++ "k"
  else fmtF1 (distanceMeters / 1000) ++ "k"

lemma roundHalfEven_intCast (n : Int) : roundHalfEven ((n : ℚ)) = n := by
  rw [roundHalfEven, Int.floor_intCast, sub_self, if_pos (by norm_num)]

/-- C8: `format_distance` renders distances below 1000 meters as whole
meters with an m suffix and distances of a kilometer or more in
kilometers with one decimal, dropping the decimal exactly when the
kilometer value is integral; 5000 gives 5k, 450 gives 450m and 10300
gives 10.3k. -/
theorem C8_format_distance (m : ℚ) (h0 : 0 ≤ m) :
    (m < 1000 → formatDistance m = fmtF0 m ++ "m")
    ∧ (1000 ≤ m → (m / 1000).den = 1 → formatDistance m = fmtF0 (m / 1000) ++ "k")
    ∧ (1000 ≤ m → (m / 1000).den ≠ 1 → formatDistance m = fmtF1 (m / 1000) ++ "k")
    ∧ formatDistance 5000 = "5k" ∧ formatDistance 450 = "450m"
    ∧ formatDistance 10300 = "10.3k" := by
  have hlt : ∀ x : ℚ, x / 1000 < 1 ↔ x < 1000 := by
    intro x
    rw [div_lt_one (by norm_num : (0:ℚ) < 1000)]
  refine ⟨?_, ?_, ?_, ?_, ?_, ?_⟩
  · intro h
    rw [formatDistance, if_pos ((hlt m).mpr h)]
  · intro h hden
    rw [formatDistance, if_neg (by rw [hlt]; exact not_lt.mpr h), if_pos hden]
  · intro h hden
    rw [formatDistance, if_neg (by rw [hlt]; exact not_lt.mpr h), if_neg hden]
  · have h5 : (5000 : ℚ) / 1000 = ((5 : Int) : ℚ) := by norm_num
    rw [formatDistance, h5, if_neg (by norm_num), if_pos (Rat.den_intCast 5),
      fmtF0, roundHalfEven_intCast]
    rfl
  · have h450 : (450 : ℚ) = ((450 : Int) : ℚ) := by norm_num
    rw [formatDistance, if_pos (by norm_num), fmtF0, h450, roundHalfEven_intCast]
    rfl
  · have hq : (10300 : ℚ) / 1000 = 103 / 10 := by norm_num
    have hden : ((103 : ℚ) / 10).den ≠ 1 := by
      intro hd
      have h1 : (((103 / 10 : ℚ)).num : ℚ) = 103 / 10 := (Rat.den_eq_one_iff _).mp hd
      have h2 : ((10 * (103 / 10 : ℚ).num : Int) : ℚ) = 103 := by
        push_cast
        rw [h1]
        norm_num
      have h3 : 10 * (103 / 10 : ℚ).num = 103 := by exact_mod_cast h2
      omega
    have h10 : (10 : ℚ) * (103 / 10) = ((103 : Int) : ℚ) := by norm_num
    rw [formatDistance, hq, if_neg (by norm_num), if_neg hden, fmtF1, h10,
      roundHalfEven_intCast]
    rfl

/-- Witness for C8: the scenario values, obtained from the theorem at a
concrete distance. -/
theorem C8_format_distance_witness : formatDistance 5000 = "5k" :=
  (C8_format_distance 5000 (by norm_num)).2.2.2.1

/-- Python substring membership `needle in haystack` on character
lists. -/
def charsContain (needle : List Char) : List Char → Bool
  | [] => needle.isEmpty
  | c :: rest => needle.isPrefixOf (c :: rest) || charsContain needle rest

/-- Python `sub in s` for strings. -/
def strContainsSub (s sub : String) : Bool := charsContain sub.data s.data

/-- The first component of `location.split(\x27, \x27)`: the characters
before the first occurrence of the separator (the whole string when the
separator does not occur). -/
def takeUntilSep (sep : List Char) : List Char → List Char
  | [] => []
  | c :: rest => if sep.isPrefixOf (c :: rest) then [] else c :: takeUntilSep sep rest

/-- `re.sub(r\x27[^a-zA-Z0-9]\x27, \x27\x27, part.lower())`: lowercase,
then keep only alphanumeric characters. -/
def sanitizeTag (s : List Char) : List Char :=
  (s.map Char.toLower).filter Char.isAlphanum

/-- `StravaCaptionGenerator.analyze_time_of_day` (caption_generator.py
lines 70-85).  The `datetime.fromisoformat` parse is an external library
call; the timestamp string is represented by its parsed hour, with
`none` when the parse raises and the bare except returns day. -/
def analyzeTimeOfDay (hourOpt : Option Nat) : String :=
  match hourOpt with
  | none => "day"
  | some hour =>
    if 5 ≤ hour ∧ hour < 11 then "morning"
    else if 11 ≤ hour ∧ hour < 17 then "afternoon"
    else if 17 ≤ hour ∧ hour < 21 then "evening"
    else "night"

/-- The photo fields read by `_generate_hashtags`: the resolved
`location_name` and the capture hour standing for the timestamp. -/
structure PhotoCtx where
  locationName : String
  captureHour : Option Nat
  deriving DecidableEq, Repr

/-- `StravaCaptionGenerator._generate_hashtags` (caption_generator.py
lines 221-257): two seed tags, one optional distance-tier tag, an
optional sanitized location tag kept only when longer than three
characters, an optional time-of-day tag, an optional run-type tag, and
a final cap of six. -/
def generateHashtags (distance : ℚ) (photo : PhotoCtx) (runType : String) : List String :=
  let base := ["#running", "#strava"]
  let withDist :=
    if 21 < distance / 1000 then base ++ ["#marathon"]
    else if 10 < distance / 1000 then base ++ ["#longrun"]
    else if 5 < distance / 1000 then base ++ ["#5k"]
    else base
  let withLoc :=
    if photo.locationName = "" then withDist
    else
      if 3 < ("#" ++ String.mk (sanitizeTag (takeUntilSep [',', ' '] photo.locationName.data))).length then
        withDist ++ ["#" ++ String.mk (sanitizeTag (takeUntilSep [',', ' '] photo.locationName.data))]
      else withDist
  let withTime :=
    if analyzeTimeOfDay photo.captureHour = "morning" then withLoc ++ ["#morningrun"]
    else if analyzeTimeOfDay photo.captureHour = "evening" then withLoc ++ ["#eveningrun"]
    else withLoc
  let withType :=
    if strContainsSub runType "scenic" then withTime ++ ["#scenicrun"]
    else if strContainsSub runType "challenging" then withTime ++ ["#hillrun"]
    else withTime
  withType.take 6

/-- C9 counterexample: a photo whose resolved location is Running yields
the sanitized location tag `#running`, duplicating the seed tag; the
hashtag list is not de-duplicated. -/
theorem C9_counterexample :
    ¬ (generateHashtags 0 ⟨"Running", none⟩ "casual_run").Nodup := by
  have hq1 : ¬ (21 < (0 : ℚ) / 1000) := by norm_num
  have hq2 : ¬ (10 < (0 : ℚ) / 1000) := by norm_num
  have hq3 : ¬ (5 < (0 : ℚ) / 1000) := by norm_num
  have h : generateHashtags 0 ⟨"Running", none⟩ "casual_run" =
      ["#running", "#strava", "#running"] := by
    rw [generateHashtags]
    rw [if_neg hq1, if_neg hq2, if_neg hq3]
    decide
  rw [h]
  decide

/-- C9 (amended): the hashtag list is capped at six entries for every
input, but it is not de-duplicated; the location-derived tag can repeat
a tag already present. -/
theorem C9_amended_cap (distance : ℚ) (photo : PhotoCtx) (runType : String) :
    (generateHashtags distance photo runType).length ≤ 6 := by
  rw [generateHashtags]
  apply List.length_take_le

/-! ## Numeric bounds for the C4 scenario distance -/

lemma cos_interval (x lo hi : ℝ) (h1 : lo ≤ x) (h2 : x ≤ hi) (h3 : 0 ≤ lo) (h4 : hi ≤ 1) :
    1 - hi ^ 2 / 2 - 5 / 96 * hi ^ 4 ≤ Real.cos x ∧
    Real.cos x ≤ 1 - lo ^ 2 / 2 + 5 / 96 * hi ^ 4 := by
  have hx0 : 0 ≤ x := le_trans h3 h1
  have habs : |x| = x := abs_of_nonneg hx0
  have hb := Real.cos_bound (show |x| ≤ 1 by rw [habs]; linarith)
  rw [habs] at hb
  have hb2 := abs_le.mp hb
  have hx2hi : x ^ 2 ≤ hi ^ 2 := by nlinarith
  have hlo2x : lo ^ 2 ≤ x ^ 2 := by nlinarith
  have hx4hi : x ^ 4 ≤ hi ^ 4 := by nlinarith [sq_nonneg x, sq_nonneg hi]
  constructor
  · linarith [hb2.1]
  · linarith [hb2.2]

lemma sin_small_bounds (x lo hi : ℝ) (h1 : lo ≤ x) (h2 : x ≤ hi) (h3 : 0 < lo) (h4 : hi ≤ 1) :
    lo - hi ^ 3 / 4 ≤ Real.sin x ∧ Real.sin x ≤ hi := by
  have hx0 : 0 < x := lt_of_lt_of_le h3 h1
  constructor
  · have hgt := Real.sin_gt_sub_cube hx0 (le_trans h2 h4)
    have hx3 : x ^ 3 ≤ hi ^ 3 := pow_le_pow_left₀ (le_of_lt hx0) h2 3
    linarith
  · exact le_of_lt (lt_of_lt_of_le (Real.sin_lt hx0) h2)

lemma arcsin_ge_of (l y : ℝ) (hl0 : 0 ≤ l) (hy1 : y ≤ 1) (hly : l ≤ y) :
    l ≤ Real.arcsin y := by
  rcases eq_or_lt_of_le hl0 with heq | hl0p
  · rw [← heq]
    exact Real.arcsin_nonneg.mpr (heq ▸ hly)
  · have h1 : Real.arcsin l ≤ Real.arcsin y := Real.monotone_arcsin hly
    have hl1 : l ≤ 1 := le_trans hly hy1
    have h2 : Real.sin (Real.arcsin l) = l := Real.sin_arcsin (by linarith) hl1
    have h3 : 0 < Real.arcsin l := Real.arcsin_pos.mpr hl0p
    have h4 : Real.sin (Real.arcsin l) < Real.arcsin l := Real.sin_lt h3
    linarith

lemma arcsin_le_of (y B : ℝ) (hB0 : 0 ≤ B) (hB1 : B ≤ 1) (hy : y ≤ Real.sin B) :
    Real.arcsin y ≤ B := by
  have hpi2 : (1 : ℝ) < Real.pi / 2 := by
    have := Real.pi_gt_three
    linarith
  have h1 : Real.arcsin y ≤ Real.arcsin (Real.sin B) := Real.monotone_arcsin hy
  rw [Real.arcsin_sin (by linarith) (by linarith)] at h1
  exact h1

set_option maxHeartbeats 1600000 in
/-- One consecutive pair of the C4 sample track is between 14.05 and
14.195 meters apart: both endpoints have latitude in
[37.7749, 37.7751] and the pair differs by +0.0001 degrees latitude and
by -0.0001 degrees longitude. -/
lemma segment_bounds (p q : Trackpoint)
    (hp1 : (37.7749 : ℚ) ≤ p.latitude) (hp2 : p.latitude ≤ 37.7751)
    (hq1 : (37.7749 : ℚ) ≤ q.latitude) (hq2 : q.latitude ≤ 37.7751)
    (hdlat : q.latitude - p.latitude = 0.0001)
    (hdlon : q.longitude - p.longitude = -0.0001) :
    (14.05 : ℝ) ≤ geodesicMeters p q ∧ geodesicMeters p q ≤ 14.195 := by
  have hpi1 := Real.pi_gt_d6
  have hpi2 := Real.pi_lt_d6
  have hplo : (37.7749 : ℝ) ≤ (p.latitude : ℝ) := by
    have h : ((37.7749 : ℚ) : ℝ) ≤ ((p.latitude : ℚ) : ℝ) := Rat.cast_le.mpr hp1
    push_cast at h
    linarith
  have hphi : (p.latitude : ℝ) ≤ 37.7751 := by
    have h : ((p.latitude : ℚ) : ℝ) ≤ ((37.7751 : ℚ) : ℝ) := Rat.cast_le.mpr hp2
    push_cast at h
    linarith
  have hqlo : (37.7749 : ℝ) ≤ (q.latitude : ℝ) := by
    have h : ((37.7749 : ℚ) : ℝ) ≤ ((q.latitude : ℚ) : ℝ) := Rat.cast_le.mpr hq1
    push_cast at h
    linarith
  have hqhi : (q.latitude : ℝ) ≤ 37.7751 := by
    have h : ((q.latitude : ℚ) : ℝ) ≤ ((37.7751 : ℚ) : ℝ) := Rat.cast_le.mpr hq2
    push_cast at h
    linarith
  rw [geodesicMeters, hdlat, hdlon]
  have hc1 : ((0.0001 : ℚ) : ℝ) = 0.0001 := by norm_num
  have hc2 : (((-0.0001 : ℚ)) : ℝ) = -0.0001 := by push_cast; norm_num
  rw [hc1, hc2]
  have hneg : (-0.0001 : ℝ) * Real.pi / 180 / 2 = -(0.0001 * Real.pi / 180 / 2) := by
    ring
  rw [hneg, Real.sin_neg, neg_sq]
  set a : ℝ := 0.0001 * Real.pi / 180 / 2 with ha
  set fp : ℝ := (p.latitude : ℝ) * Real.pi / 180 with hfp
  set fq : ℝ := (q.latitude : ℝ) * Real.pi / 180 with hfq
  have ha1 : (0.000000872664 : ℝ) ≤ a := by rw [ha]; linarith
  have ha2 : a ≤ (0.000000872665 : ℝ) := by rw [ha]; linarith
  have hsin := sin_small_bounds a 0.000000872664 0.000000872665 ha1 ha2
    (by norm_num) (by norm_num)
  have hs1 : (0.000000872663 : ℝ) ≤ Real.sin a := by
    have hcube : ((0.000000872665 : ℝ)) ^ 3 / 4 ≤ 0.000000000001 := by norm_num
    linarith [hsin.1]
  have hs2 : Real.sin a ≤ 0.000000872665 := hsin.2
  have hs0 : (0 : ℝ) ≤ Real.sin a := by linarith
  have hss_lo : (0.000000872663 : ℝ) ^ 2 ≤ Real.sin a ^ 2 := by nlinarith
  have hss_hi : Real.sin a ^ 2 ≤ (0.000000872665 : ℝ) ^ 2 := by nlinarith
  have hfp_lo : (0.659296 : ℝ) ≤ fp := by
    rw [hfp]
    nlinarith
  have hfp_hi : fp ≤ (0.6593 : ℝ) := by
    rw [hfp]
    nlinarith
  have hfq_lo : (0.659296 : ℝ) ≤ fq := by
    rw [hfq]
    nlinarith
  have hfq_hi : fq ≤ (0.6593 : ℝ) := by
    rw [hfq]
    nlinarith
  have hcp := cos_interval fp 0.659296 0.6593 hfp_lo hfp_hi (by norm_num) (by norm_num)
  have hcq := cos_interval fq 0.659296 0.6593 hfq_lo hfq_hi (by norm_num) (by norm_num)
  have hcp_lo : (0.7728 : ℝ) ≤ Real.cos fp := by
    have := hcp.1
    norm_num at this ⊢
    linarith
  have hcp_hi : Real.cos fp ≤ (0.7926 : ℝ) := by
    have := hcp.2
    norm_num at this ⊢
    linarith
  have hcq_lo : (0.7728 : ℝ) ≤ Real.cos fq := by
    have := hcq.1
    norm_num at this ⊢
    linarith
  have hcq_hi : Real.cos fq ≤ (0.7926 : ℝ) := by
    have := hcq.2
    norm_num at this ⊢
    linarith
  have hprod_lo : (0.5972 : ℝ) ≤ Real.cos fp * Real.cos fq := by nlinarith
  have hprod_hi : Real.cos fp * Real.cos fq ≤ (0.6283 : ℝ) := by nlinarith
  set H : ℝ := Real.sin a ^ 2 + Real.cos fp * Real.cos fq * Real.sin a ^ 2 with hH
  have hH_lo : (0.0000000000012163 : ℝ) ≤ H := by
    rw [hH]
    nlinarith
  have hH_hi : H ≤ (0.0000000000012401 : ℝ) := by
    rw [hH]
    nlinarith
  have hsqrt_lo : (0.00000110285 : ℝ) ≤ Real.sqrt H := by
    rw [Real.le_sqrt (by norm_num) (by linarith)]
    nlinarith
  have hsqrt_hi : Real.sqrt H ≤ (0.00000111361 : ℝ) := by
    have h1 : H ≤ (0.00000111361 : ℝ) ^ 2 := by nlinarith
    have h2 := Real.sqrt_le_sqrt h1
    rwa [Real.sqrt_sq (by norm_num)] at h2
  have harc_lo : (0.00000110285 : ℝ) ≤ Real.arcsin (Real.sqrt H) :=
    arcsin_ge_of _ _ (by norm_num) (by linarith) hsqrt_lo
  have harc_hi : Real.arcsin (Real.sqrt H) ≤ (0.0000011137 : ℝ) := by
    refine arcsin_le_of _ _ (by norm_num) (by norm_num) ?_
    have hsinB := sin_small_bounds 0.0000011137 0.0000011137 0.0000011137
      le_rfl le_rfl (by norm_num) (by norm_num)
    have hmargin : (0.00000111361 : ℝ) ≤
        0.0000011137 - (0.0000011137 : ℝ) ^ 3 / 4 := by norm_num
    linarith [hsinB.1]
  constructor
  · linarith
  · linarith

/-- The value of `_extract_activity_data` on the three-sample scenario
track, spelled out; equal by unfolding the accumulation loop. -/
lemma extract_sample_eq :
    extractActivityData sampleTrack = some
      ⟨0 + geodesicMeters samplePt0 samplePt1 + geodesicMeters samplePt1 samplePt2,
       600,
       averageOf [geodesicMeters samplePt0 samplePt1 / ((300 : Int) : ℝ) * 3.6,
         geodesicMeters samplePt1 samplePt2 / ((300 : Int) : ℝ) * 3.6],
       0, ⟨0, none⟩, ⟨600, none⟩⟩ := rfl

lemma sample_segment1 :
    (14.05 : ℝ) ≤ geodesicMeters samplePt0 samplePt1 ∧
      geodesicMeters samplePt0 samplePt1 ≤ 14.195 :=
  segment_bounds samplePt0 samplePt1 (by norm_num [samplePt0])
    (by norm_num [samplePt0]) (by norm_num [samplePt1]) (by norm_num [samplePt1])
    (by norm_num [samplePt0, samplePt1]) (by norm_num [samplePt0, samplePt1])

lemma sample_segment2 :
    (14.05 : ℝ) ≤ geodesicMeters samplePt1 samplePt2 ∧
      geodesicMeters samplePt1 samplePt2 ≤ 14.195 :=
  segment_bounds samplePt1 samplePt2 (by norm_num [samplePt1])
    (by norm_num [samplePt1]) (by norm_num [samplePt2]) (by norm_num [samplePt2])
    (by norm_num [samplePt1, samplePt2]) (by norm_num [samplePt1, samplePt2])

/-- C4 counterexample: aggregating the three-sample track does not give
a total distance of 14 to 16 meters; each consecutive pair alone is
about 14.1 meters apart, so the total is about 28.2 meters. -/
theorem C4_counterexample :
    ∃ m, extractActivityData sampleTrack = some m ∧
      ¬ ((14 : ℝ) ≤ m.distance ∧ m.distance ≤ 16) := by
  refine ⟨_, extract_sample_eq, ?_⟩
  intro hc
  have hc2 : 0 + geodesicMeters samplePt0 samplePt1 +
      geodesicMeters samplePt1 samplePt2 ≤ 16 := hc.2
  linarith [sample_segment1.1, sample_segment2.1]

/-- C4 (amended): aggregating the three-sample track yields a total
distance between 28 and 28.5 meters (the twice-14.1-meter pair
distances), a duration of 600 seconds, and a strictly positive average
speed. -/
theorem C4_sample_metrics :
    ∃ m, extractActivityData sampleTrack = some m ∧
      (28 : ℝ) ≤ m.distance ∧ m.distance ≤ 28.5 ∧ m.duration = 600 ∧
      0 < m.averageSpeed := by
  refine ⟨_, extract_sample_eq, ?_, ?_, rfl, ?_⟩
  · show (28 : ℝ) ≤ 0 + geodesicMeters samplePt0 samplePt1 +
      geodesicMeters samplePt1 samplePt2
    linarith [sample_segment1.1, sample_segment2.1]
  · show 0 + geodesicMeters samplePt0 samplePt1 +
      geodesicMeters samplePt1 samplePt2 ≤ (28.5 : ℝ)
    linarith [sample_segment1.2, sample_segment2.2]
  · show (0 : ℝ) < averageOf
      [geodesicMeters samplePt0 samplePt1 / ((300 : Int) : ℝ) * 3.6,
       geodesicMeters samplePt1 samplePt2 / ((300 : Int) : ℝ) * 3.6]
    have hg1 : (0 : ℝ) < geodesicMeters samplePt0 samplePt1 := by
      linarith [sample_segment1.1]
    have hg2 : (0 : ℝ) < geodesicMeters samplePt1 samplePt2 := by
      linarith [sample_segment2.1]
    have hcast : ((300 : Int) : ℝ) = 300 := by norm_num
    have hv1 : (0 : ℝ) < geodesicMeters samplePt0 samplePt1 / ((300 : Int) : ℝ) * 3.6 := by
      rw [hcast]
      exact mul_pos (div_pos hg1 (by norm_num)) (by norm_num)
    have hv2 : (0 : ℝ) < geodesicMeters samplePt1 samplePt2 / ((300 : Int) : ℝ) * 3.6 := by
      rw [hcast]
      exact mul_pos (div_pos hg2 (by norm_num)) (by norm_num)
    rw [averageOf, if_neg (by simp)]
    simp only [List.sum_cons, List.sum_nil, List.length_cons, List.length_nil]
    apply div_pos
    · linarith
    · norm_num

end StravaAssistant
